import Mathlib

/-!
Shallow embedding of the poll state-reconciliation and durable-answer-submission
engine (PollManager).  The manager owns a registry of polls, a per-poll
pending-answer map, a write-ahead log and a durable poll store; the asynchronous
remote vote call is modelled by emitting events (remote call issued, call
cancelled, waiter resolved, change notification fired, poll saved) that the
environment would consume.  Assertions (CHECK) in the source are modelled by
returning `none` from the operation.
-/

/-- Association-list lookup: first binding of the key wins, like a map. -/
def alistGet {κ β : Type} [DecidableEq κ] (l : List (κ × β)) (k : κ) : Option β :=
  match l with
  | [] => none
  | (k', v) :: rest => if k = k' then some v else alistGet rest k

/-- Association-list update: replace the first binding of the key, or append. -/
def alistSet {κ β : Type} [DecidableEq κ] (l : List (κ × β)) (k : κ) (v : β) :
    List (κ × β) :=
  match l with
  | [] => [(k, v)]
  | (k', v') :: rest => if k = k' then (k, v) :: rest else (k', v') :: alistSet rest k v

/-- Association-list erase: remove the first binding of the key. -/
def alistErase {κ β : Type} [DecidableEq κ] (l : List (κ × β)) (k : κ) :
    List (κ × β) :=
  match l with
  | [] => []
  | (k', v') :: rest => if k = k' then rest else (k', v') :: alistErase rest k

/-- PollOption: one selectable option of a poll (`PollManager::PollOption`). -/
structure PollOption where
  text : String
  data : String
  voter_count : Int
  is_chosen : Bool
deriving DecidableEq, Repr

/-- Poll record stored in the registry (`PollManager::Poll`). -/
structure Poll where
  question : String
  options : List PollOption
  total_voter_count : Int
  is_closed : Bool
deriving DecidableEq, Repr

/-- Result carried by the remote vote call's completion (td `Result<Unit>`). -/
inductive VoteResult where
  | ok : VoteResult
  | error (code : Int) (msg : String) : VoteResult
deriving DecidableEq, Repr

/-- Per-poll in-flight vote state (`PollManager::PendingAnswer`).  Promises are
identified by numeric handles; the cancellable net-query reference is `some ref`
once a remote call has been issued. -/
structure PendingAnswer where
  options_ : List String
  promises_ : List Nat
  generation_ : Nat
  logevent_id_ : Nat
  query_ref_ : Option Nat
deriving DecidableEq, Repr

/-- The default-constructed `PendingAnswer` produced by map `operator[]`. -/
def PendingAnswer.empty : PendingAnswer :=
  { options_ := [], promises_ := [], generation_ := 0, logevent_id_ := 0, query_ref_ := none }

/-- Payload of a `SetPollAnswer` write-ahead-log entry
(`PollManager::SetPollAnswerLogEvent`). -/
structure LogEntry where
  poll_id : Int
  full_message_id : Nat
  options_ : List String
deriving DecidableEq, Repr

/-- Observable effects of an operation: waiter resolutions, query
cancellations, remote vote calls, change notifications and poll saves. -/
inductive Event where
  | resolve (promise : Nat) (r : VoteResult) : Event
  | cancelQuery (ref : Nat) : Event
  | sendVote (poll_id : Int) (message_id : Nat) (options : List String) (generation : Nat) : Event
  | notifyMsg (poll_id : Int) (message_id : Nat) : Event
  | savePoll (poll_id : Int) : Event
deriving DecidableEq, Repr

/-- The PollManager's state: poll registry, pending-answer map, message index,
generation and local-id counters, the write-ahead log (binlog), the durable
poll store and its load-miss set, and the `use_message_db` parameter. -/
structure ManagerState where
  polls_ : List (Int × Poll)
  pending_answers_ : List (Int × PendingAnswer)
  poll_messages_ : List (Int × List Nat)
  current_generation_ : Nat
  current_local_poll_id_ : Int
  binlog_ : List (Nat × LogEntry)
  next_logevent_id_ : Nat
  db_polls_ : List (Int × Poll)
  loaded_from_database_polls_ : List Int
  use_message_db : Bool
deriving DecidableEq, Repr

/-- `PollManager::is_local_poll_id`: negative but above the int32 minimum. -/
def is_local_poll_id (poll_id : Int) : Prop :=
  poll_id < 0 ∧ -2147483648 < poll_id

instance (poll_id : Int) : Decidable (is_local_poll_id poll_id) :=
  inferInstanceAs (Decidable (_ ∧ _))

/-- `PollManager::notify_on_poll_update`: fan a change notification out to
every message registered against the poll. -/
def notify_on_poll_update (s : ManagerState) (poll_id : Int) : List Event :=
  match alistGet s.poll_messages_ poll_id with
  | none => []
  | some msgs => msgs.map (fun m => Event.notifyMsg poll_id m)

/-- `PollManager::save_poll`: write the poll to the durable store; a no-op when
the message database is disabled. -/
def save_poll (s : ManagerState) (poll_id : Int) (poll : Poll) :
    ManagerState × List Event :=
  if s.use_message_db = true then
    ({ s with db_polls_ := alistSet s.db_polls_ poll_id poll }, [Event.savePoll poll_id])
  else (s, [])

/-- `PollManager::get_poll_force`: in-memory lookup, falling back to a
once-only synchronous load from the durable store. -/
def get_poll_force (s : ManagerState) (poll_id : Int) : ManagerState × Option Poll :=
  match alistGet s.polls_ poll_id with
  | some p => (s, some p)
  | none =>
    if s.use_message_db = false then (s, none)
    else if poll_id ∈ s.loaded_from_database_polls_ then (s, none)
    else
      let s2 := { s with loaded_from_database_polls_ := poll_id :: s.loaded_from_database_polls_ }
      match alistGet s.db_polls_ poll_id with
      | none => (s2, none)
      | some p => ({ s2 with polls_ := alistSet s2.polls_ poll_id p }, some p)

/-- `PollManager::create_poll`: allocate the next local id and insert a fresh
poll whose option data keys are the decimal positions. -/
def create_poll (s : ManagerState) (question : String) (options : List String) :
    ManagerState × Int :=
  let opts := options.enum.map
    (fun p => { text := p.2, data := toString p.1, voter_count := 0, is_chosen := false : PollOption })
  let poll : Poll := { question := question, options := opts, total_voter_count := 0, is_closed := false }
  let poll_id := s.current_local_poll_id_ - 1
  ({ s with polls_ := alistSet s.polls_ poll_id poll, current_local_poll_id_ := poll_id }, poll_id)

/-- `PollManager::register_poll`: record a message displaying the poll; the
poll must already exist (CHECK). -/
def register_poll (s : ManagerState) (poll_id : Int) (full_message_id : Nat) :
    Option ManagerState :=
  match alistGet s.polls_ poll_id with
  | none => none
  | some _ =>
    let cur := (alistGet s.poll_messages_ poll_id).getD []
    let cur2 := if full_message_id ∈ cur then cur else cur ++ [full_message_id]
    some { s with poll_messages_ := alistSet s.poll_messages_ poll_id cur2 }

/-- `PollManager::unregister_poll`: drop a message from the poll's message set;
the poll must already exist (CHECK). -/
def unregister_poll (s : ManagerState) (poll_id : Int) (full_message_id : Nat) :
    Option ManagerState :=
  match alistGet s.polls_ poll_id with
  | none => none
  | some _ =>
    let cur := (alistGet s.poll_messages_ poll_id).getD []
    some { s with poll_messages_ := alistSet s.poll_messages_ poll_id (cur.erase full_message_id) }

/-- `PollManager::close_poll`: idempotent close; notifies and, for non-local
ids, persists. -/
def close_poll (s : ManagerState) (poll_id : Int) : Option (ManagerState × List Event) :=
  match alistGet s.polls_ poll_id with
  | none => none
  | some poll =>
    if poll.is_closed = true then some (s, [])
    else
      let poll2 := { poll with is_closed := true }
      let s2 := { s with polls_ := alistSet s.polls_ poll_id poll2 }
      if is_local_poll_id poll_id then some (s2, notify_on_poll_update s poll_id)
      else
        let sv := save_poll s2 poll_id poll2
        some (sv.1, notify_on_poll_update s poll_id ++ sv.2)

/-- Write-ahead-log step of `do_set_poll_answer` (lines 300-317): on a caller
path with the message database enabled, append a fresh entry for a first
submission or rewrite the existing entry in place for a superseding one.
Returns the log entry id to record, the new log and the next fresh id. -/
def wal_step (s : ManagerState) (pa : PendingAnswer) (poll_id : Int)
    (full_message_id : Nat) (options : List String) (logevent_id : Nat) :
    Option (Nat × List (Nat × LogEntry) × Nat) :=
  if logevent_id = 0 ∧ s.use_message_db = true then
    if pa.generation_ = 0 then
      if pa.logevent_id_ ≠ 0 then none
      else some (s.next_logevent_id_,
                 s.binlog_ ++ [(s.next_logevent_id_,
                   { poll_id := poll_id, full_message_id := full_message_id, options_ := options })],
                 s.next_logevent_id_ + 1)
    else
      if pa.logevent_id_ = 0 then none
      else some (pa.logevent_id_,
                 alistSet s.binlog_ pa.logevent_id_
                   { poll_id := poll_id, full_message_id := full_message_id, options_ := options },
                 s.next_logevent_id_)
  else some (logevent_id, s.binlog_, s.next_logevent_id_)

/-- Supersession step of `do_set_poll_answer` (lines 319-329): if the previous
pending answer had waiters, cancel its in-flight call (CHECK that a query
reference exists) and resolve every displaced waiter with success. -/
def cancel_step (pa : PendingAnswer) : Option (List Event) :=
  if pa.promises_ = [] then some []
  else
    match pa.query_ref_ with
    | none => none
    | some ref =>
      some (Event.cancelQuery ref :: pa.promises_.map (fun p => Event.resolve p VoteResult.ok))

/-- `PollManager::do_set_poll_answer`: the coalescing core.  Coalesce an
identical concurrent submission, otherwise write/rewrite the log entry,
supersede any previous pending answer, install the new pending answer under a
fresh generation, notify, and issue the remote vote call. -/
def do_set_poll_answer (s : ManagerState) (poll_id : Int) (full_message_id : Nat)
    (options : List String) (logevent_id : Nat) (promise : Nat) :
    Option (ManagerState × List Event) :=
  let pending_answer := (alistGet s.pending_answers_ poll_id).getD PendingAnswer.empty
  if pending_answer.promises_ ≠ [] ∧ pending_answer.options_ = options then
    let pa1 := { pending_answer with promises_ := pending_answer.promises_ ++ [promise] }
    some ({ s with pending_answers_ := alistSet s.pending_answers_ poll_id pa1 }, [])
  else if ¬ (pending_answer.logevent_id_ = 0 ∨ logevent_id = 0) then none
  else
    match wal_step s pending_answer poll_id full_message_id options logevent_id with
    | none => none
    | some (logevent_id2, binlog2, next2) =>
      match cancel_step pending_answer with
      | none => none
      | some ev1 =>
        let generation := s.current_generation_ + 1
        let pa2 : PendingAnswer :=
          { options_ := options, promises_ := [promise], generation_ := generation,
            logevent_id_ := logevent_id2, query_ref_ := some generation }
        some ({ s with pending_answers_ := alistSet s.pending_answers_ poll_id pa2,
                       current_generation_ := generation,
                       binlog_ := binlog2,
                       next_logevent_id_ := next2 },
              ev1 ++ notify_on_poll_update s poll_id ++
                [Event.sendVote poll_id full_message_id options generation])

/-- Map selected option indices to their option data keys, failing on any
out-of-range index (a negative id is cast to a huge size_t in the source and
is therefore out of range). -/
def map_option_ids (opts : List PollOption) : List Int → Option (List String)
  | [] => some []
  | i :: rest =>
    if 0 ≤ i ∧ i.toNat < opts.length then
      match map_option_ids opts rest with
      | some l => some ((opts.getD i.toNat { text := "", data := "", voter_count := 0, is_chosen := false }).data :: l)
      | none => none
    else none

/-- `PollManager::set_poll_answer`: validation (single choice, non-local poll,
open poll, indices in range; the poll must exist — CHECK) followed by the
coalescing core. -/
def set_poll_answer (s : ManagerState) (poll_id : Int) (full_message_id : Nat)
    (option_ids : List Int) (promise : Nat) : Option (ManagerState × List Event) :=
  if option_ids.length > 1 then
    some (s, [Event.resolve promise (VoteResult.error 400 "Cannot choose more than 1 option")])
  else if is_local_poll_id poll_id then
    some (s, [Event.resolve promise (VoteResult.error 5 "Poll cannot be answered")])
  else
    match alistGet s.polls_ poll_id with
    | none => none
    | some poll =>
      if poll.is_closed = true then
        some (s, [Event.resolve promise (VoteResult.error 400 "Cannot answer closed poll")])
      else
        match map_option_ids poll.options option_ids with
        | none => some (s, [Event.resolve promise (VoteResult.error 400 "Invalid option id specified")])
        | some options => do_set_poll_answer s poll_id full_message_id options 0 promise

/-- `PollManager::on_set_poll_answer`: completion handler of the remote vote
call.  Swallow errors during shutdown, discard stale completions (missing
pending answer or mismatched generation), otherwise erase the log entry,
resolve every waiter with the result and drop the pending answer.  The found
pending answer must have at least one waiter (CHECK). -/
def on_set_poll_answer (s : ManagerState) (close_flag : Bool) (poll_id : Int)
    (generation : Nat) (result : VoteResult) : Option (ManagerState × List Event) :=
  if close_flag = true ∧ result ≠ VoteResult.ok then some (s, [])
  else
    match alistGet s.pending_answers_ poll_id with
    | none => some (s, [])
    | some pa =>
      if pa.promises_ = [] then none
      else if pa.generation_ ≠ generation then some (s, [])
      else
        some ({ s with pending_answers_ := alistErase s.pending_answers_ poll_id,
                       binlog_ := if pa.logevent_id_ ≠ 0 then alistErase s.binlog_ pa.logevent_id_
                                  else s.binlog_ },
              pa.promises_.map (fun p => Event.resolve p result))

/-- One `SetPollAnswer` entry of `PollManager::on_binlog_events`: with the
message database disabled the stray entry is erased, otherwise replay goes
through the coalescing core with the entry's own id and a no-op completion. -/
def replay_event (s : ManagerState) (event_id : Nat) (e : LogEntry) (noop_promise : Nat) :
    Option (ManagerState × List Event) :=
  if s.use_message_db = true then
    do_set_poll_answer s e.poll_id e.full_message_id e.options_ event_id noop_promise
  else
    some ({ s with binlog_ := alistErase s.binlog_ event_id }, [])

/-- Client-visible poll option snapshot (`td_api::pollOption`). -/
structure PollOptionObj where
  text : String
  voter_count : Int
  is_chosen : Bool
deriving DecidableEq, Repr

/-- Client-visible poll snapshot (`td_api::poll`). -/
structure PollObj where
  question : String
  options : List PollOptionObj
  total_voter_count : Int
  is_closed : Bool
deriving DecidableEq, Repr

/-- `PollManager::get_poll_object`: render the poll, overlaying a pending
answer: chosen flags are recomputed from the pending keys, per-option counts
are adjusted by the confirmed and pending votes, and the total is adjusted by
-1 when some confirmed option is chosen and +1 when the pending key list is
non-empty.  The poll must exist (CHECK). -/
def get_poll_object (s : ManagerState) (poll_id : Int) : Option PollObj :=
  match alistGet s.polls_ poll_id with
  | none => none
  | some poll =>
    match alistGet s.pending_answers_ poll_id with
    | none =>
      some { question := poll.question,
             options := poll.options.map
               (fun o => { text := o.text, voter_count := o.voter_count, is_chosen := o.is_chosen }),
             total_voter_count := poll.total_voter_count,
             is_closed := poll.is_closed }
    | some pa =>
      let chosen := pa.options_
      let diff0 : Int := if ∃ o ∈ poll.options, o.is_chosen = true then -1 else 0
      let opts := poll.options.map (fun o =>
        let is_chosen := chosen.contains o.data
        { text := o.text,
          voter_count := o.voter_count - (if o.is_chosen then 1 else 0) +
            (if is_chosen then 1 else 0),
          is_chosen := is_chosen : PollOptionObj })
      let diff := diff0 + (if chosen = [] then 0 else 1)
      some { question := poll.question, options := opts,
             total_voter_count := poll.total_voter_count + diff,
             is_closed := poll.is_closed }

/-- Server-side poll option payload (`telegram_api::pollAnswer`). -/
structure ServerPollAnswer where
  text : String
  option : String
deriving DecidableEq, Repr

/-- Server-side poll payload (`telegram_api::poll`). -/
structure ServerPoll where
  id : Int
  closed : Bool
  question : String
  answers : List ServerPollAnswer
deriving DecidableEq, Repr

/-- Server-side per-option tally entry (`telegram_api::pollAnswerVoters`). -/
structure PollAnswerVoters where
  chosen : Bool
  option : String
  voters : Int
deriving DecidableEq, Repr

/-- Server-side results payload (`telegram_api::pollResults`). -/
structure PollResults where
  min : Bool
  has_total_voters : Bool
  total_voters : Int
  results : List PollAnswerVoters
deriving DecidableEq, Repr

/-- `PollManager::get_poll_options`: wholesale conversion of the server option
list, resetting tallies and chosen flags. -/
def get_poll_options (answers : List ServerPollAnswer) : List PollOption :=
  answers.map (fun a => { text := a.text, data := a.option, voter_count := 0, is_chosen := false })

/-- Position-wise merge of one option against its server counterpart
(`on_get_poll` lines 458-467): update text on difference; if the data key
differs, replace it and reset the tally and chosen flag.  The flag records
whether anything changed. -/
def merge_option (o : PollOption) (a : ServerPollAnswer) : PollOption × Bool :=
  let p1 := if o.text = a.text then (o, false) else ({ o with text := a.text }, true)
  let p2 := if p1.1.data = a.option then (p1.1, false)
            else ({ p1.1 with data := a.option, voter_count := 0, is_chosen := false }, true)
  (p2.1, p1.2 || p2.2)

/-- Position-wise merge of the whole option list (only reached when the list
sizes agree). -/
def merge_options : List PollOption → List ServerPollAnswer → List PollOption × Bool
  | o :: os, a :: as =>
    let p := merge_option o a
    let ps := merge_options os as
    (p.1 :: ps.1, p.2 || ps.2)
  | os, _ => (os, false)

/-- Merge of the server poll payload (`on_get_poll` lines 448-475): question,
option list (wholesale on size change, position-wise otherwise) and the closed
flag, each dirty-tracked. -/
def apply_poll_server (poll : Poll) (sp : ServerPoll) : Poll × Bool :=
  let p1 := if poll.question = sp.question then (poll, false)
            else ({ poll with question := sp.question }, true)
  let p2 := if p1.1.options.length = sp.answers.length then
              let m := merge_options p1.1.options sp.answers
              ({ p1.1 with options := m.1 }, m.2)
            else ({ p1.1 with options := get_poll_options sp.answers }, true)
  let p3 := if sp.closed = p2.1.is_closed then (p2.1, false)
            else ({ p2.1 with is_closed := sp.closed }, true)
  (p3.1, (p1.2 || p2.2) || p3.2)

/-- One tally entry applied to one option (`on_get_poll` lines 486-501): only
an option with a matching data key is touched; the chosen flag is updated only
when the results are not minimal; the voter count is updated on difference. -/
def apply_result_to_option (is_min : Bool) (r : PollAnswerVoters) (o : PollOption) :
    PollOption × Bool :=
  if o.data = r.option then
    let p1 := if is_min = false ∧ r.chosen ≠ o.is_chosen then ({ o with is_chosen := r.chosen }, true)
              else (o, false)
    let p2 := if r.voters = p1.1.voter_count then (p1.1, false)
              else ({ p1.1 with voter_count := r.voters }, true)
    (p2.1, p1.2 || p2.2)
  else (o, false)

/-- One tally entry applied across the whole option list. -/
def apply_result (is_min : Bool) (r : PollAnswerVoters) :
    List PollOption → List PollOption × Bool
  | [] => ([], false)
  | o :: os =>
    let p := apply_result_to_option is_min r o
    let ps := apply_result is_min r os
    (p.1 :: ps.1, p.2 || ps.2)

/-- All tally entries applied in order (`on_get_poll` lines 484-502). -/
def apply_results_list (is_min : Bool) (os : List PollOption) :
    List PollAnswerVoters → List PollOption × Bool
  | [] => (os, false)
  | r :: rs =>
    let p := apply_result is_min r os
    let ps := apply_results_list is_min p.1 rs
    (ps.1, p.2 || ps.2)

/-- Merge of the results payload (`on_get_poll` lines 477-502): the total when
explicitly carried and different, then the per-option tallies. -/
def apply_poll_results (poll : Poll) (pr : PollResults) : Poll × Bool :=
  let p1 := if pr.has_total_voters = true ∧ pr.total_voters ≠ poll.total_voter_count then
              ({ poll with total_voter_count := pr.total_voters }, true)
            else (poll, false)
  let m := apply_results_list pr.min p1.1.options pr.results
  ({ p1.1 with options := m.1 }, p1.2 || m.2)

/-- Adopt the server payload's embedded id when none was supplied
(`on_get_poll` lines 421-423; a PollId is valid iff non-zero). -/
def resolve_poll_id (poll_id : Int) (sp : Option ServerPoll) : Int :=
  if poll_id = 0 then (match sp with | some p => p.id | none => poll_id) else poll_id

/-- Whether the supplied poll payload's identity disagrees with the target
identity (`on_get_poll` lines 428-431). -/
def server_id_mismatch (poll_id : Int) (sp : Option ServerPoll) : Bool :=
  match sp with
  | some p => p.id != poll_id
  | none => false

/-- The dirty-tracked merge of `on_get_poll` (lines 448-502): the optional
server poll payload followed by the results payload, with the accumulated
changed flag. -/
def merge_poll (poll0 : Poll) (sp : Option ServerPoll) (pr : PollResults) : Poll × Bool :=
  let m1 := match sp with
    | some spv => apply_poll_server poll0 spv
    | none => (poll0, false)
  let m2 := apply_poll_results m1.1 pr
  (m2.1, m1.2 || m2.2)

/-- `PollManager::on_get_poll`: the reconciliation operation.  Validates the
identity, loads or creates the registry entry, performs the dirty-tracked
merge, and on actual change fires the change notification and persists.
Returns the new state, the emitted events, and the affected id (0 when the
update was ignored). -/
def on_get_poll (s : ManagerState) (poll_id0 : Int) (sp : Option ServerPoll)
    (pr : PollResults) : ManagerState × List Event × Int :=
  let poll_id := resolve_poll_id poll_id0 sp
  if poll_id = 0 ∨ is_local_poll_id poll_id then (s, [], 0)
  else if server_id_mismatch poll_id sp then (s, [], 0)
  else
    let fp := get_poll_force s poll_id
    match fp.2, sp with
    | none, none => (fp.1, [], 0)
    | op, _ =>
      let poll0 := op.getD { question := "", options := [], total_voter_count := 0, is_closed := false }
      let m := merge_poll poll0 sp pr
      let s1 := { fp.1 with polls_ := alistSet fp.1.polls_ poll_id m.1 }
      if m.2 then
        let sv := save_poll s1 poll_id m.1
        (sv.1, notify_on_poll_update s1 poll_id ++ sv.2, poll_id)
      else (s1, [], poll_id)

/-- One step of the manager: any public operation that completed without
tripping an assertion. -/
inductive ManagerStep : ManagerState → ManagerState → Prop where
  | create : ∀ s q opts, ManagerStep s (create_poll s q opts).1
  | reg : ∀ s pid m s', register_poll s pid m = some s' → ManagerStep s s'
  | unreg : ∀ s pid m s', unregister_poll s pid m = some s' → ManagerStep s s'
  | vote : ∀ s pid m ids pr s' ev, set_poll_answer s pid m ids pr = some (s', ev) → ManagerStep s s'
  | voted : ∀ s c pid g r s' ev, on_set_poll_answer s c pid g r = some (s', ev) → ManagerStep s s'
  | closed : ∀ s pid s' ev, close_poll s pid = some (s', ev) → ManagerStep s s'
  | server : ∀ s pid sp pr s' ev pid', on_get_poll s pid sp pr = (s', ev, pid') → ManagerStep s s'
  | replay : ∀ s id e p s' ev, replay_event s id e p = some (s', ev) → ManagerStep s s'

/-- States reachable at operation boundaries: any start state with an empty
pending-answer map (the map is in-memory only, hence empty at process start),
closed under manager steps. -/
inductive Reachable : ManagerState → Prop where
  | init : ∀ s, s.pending_answers_ = [] → Reachable s
  | step : ∀ s s', Reachable s → ManagerStep s s' → Reachable s'

theorem alistGet_set_self {κ β : Type} [DecidableEq κ] (l : List (κ × β)) (k : κ) (v : β) :
    alistGet (alistSet l k v) k = some v := by
  induction l with
  | nil => simp [alistGet, alistSet]
  | cons hd tl ih =>
    obtain ⟨k', v'⟩ := hd
    by_cases hk : k = k'
    · simp [alistSet, hk, alistGet]
    · simp [alistSet, hk, alistGet, ih]

theorem alistGet_set_ne {κ β : Type} [DecidableEq κ] (l : List (κ × β)) (k k' : κ) (v : β)
    (h : k' ≠ k) : alistGet (alistSet l k v) k' = alistGet l k' := by
  induction l with
  | nil => simp [alistGet, alistSet, h]
  | cons hd tl ih =>
    obtain ⟨k0, v0⟩ := hd
    by_cases hk : k = k0
    · subst hk
      simp [alistSet, alistGet, h]
    · by_cases hk' : k' = k0 <;> simp [alistSet, alistGet, hk, hk', ih]

theorem alistSet_alistSet {κ β : Type} [DecidableEq κ] (l : List (κ × β)) (k : κ) (v w : β) :
    alistSet (alistSet l k v) k w = alistSet l k w := by
  induction l with
  | nil => simp [alistSet]
  | cons hd tl ih =>
    obtain ⟨k0, v0⟩ := hd
    by_cases hk : k = k0 <;> simp [alistSet, hk, ih]

theorem mem_alistSet {κ β : Type} [DecidableEq κ] (l : List (κ × β)) (k : κ) (v : β)
    (x : κ × β) (h : x ∈ alistSet l k v) : x = (k, v) ∨ x ∈ l := by
  induction l with
  | nil =>
    simp [alistSet] at h
    exact Or.inl h
  | cons hd tl ih =>
    obtain ⟨k0, v0⟩ := hd
    by_cases hk : k = k0
    · simp [alistSet, hk] at h
      rcases h with h | h
      · exact Or.inl (by simp [h, hk])
      · exact Or.inr (List.mem_cons_of_mem _ h)
    · simp [alistSet, hk] at h
      rcases h with h | h
      · exact Or.inr (by simp [h])
      · rcases ih h with h' | h'
        · exact Or.inl h'
        · exact Or.inr (List.mem_cons_of_mem _ h')

theorem mem_alistErase {κ β : Type} [DecidableEq κ] (l : List (κ × β)) (k : κ)
    (x : κ × β) (h : x ∈ alistErase l k) : x ∈ l := by
  induction l with
  | nil => simp [alistErase] at h
  | cons hd tl ih =>
    obtain ⟨k0, v0⟩ := hd
    by_cases hk : k = k0
    · simp [alistErase, hk] at h
      exact List.mem_cons_of_mem _ h
    · simp [alistErase, hk] at h
      rcases h with h | h
      · simp [h]
      · exact List.mem_cons_of_mem _ (ih h)

theorem alistGet_mem {κ β : Type} [DecidableEq κ] (l : List (κ × β)) (k : κ) (v : β)
    (h : alistGet l k = some v) : (k, v) ∈ l := by
  induction l with
  | nil => simp [alistGet] at h
  | cons hd tl ih =>
    obtain ⟨k0, v0⟩ := hd
    by_cases hk : k = k0
    · simp [alistGet, hk] at h
      simp [hk, h]
    · simp [alistGet, hk] at h
      exact List.mem_cons_of_mem _ (ih h)

/-- Claim C2: with an existing pending answer carrying identical chosen keys
and a non-empty waiter list, `do_set_poll_answer` only appends the completion
to the waiter list: the registry, the write-ahead log, the next log id, the
generation counter, the message index and the durable store are all unchanged
and no event (no cancellation, no remote call) is emitted; afterwards the
single remote call's completion at the pending generation resolves all waiters
together with its outcome. -/
theorem c2_coalesce (s : ManagerState) (pid : Int) (mid : Nat) (opts : List String)
    (pr : Nat) (pa : PendingAnswer)
    (hpa : alistGet s.pending_answers_ pid = some pa)
    (hne : pa.promises_ ≠ [])
    (heq : pa.options_ = opts) :
    ∃ s', do_set_poll_answer s pid mid opts 0 pr = some (s', []) ∧
      s'.pending_answers_ =
        alistSet s.pending_answers_ pid { pa with promises_ := pa.promises_ ++ [pr] } ∧
      s'.polls_ = s.polls_ ∧ s'.binlog_ = s.binlog_ ∧
      s'.next_logevent_id_ = s.next_logevent_id_ ∧
      s'.current_generation_ = s.current_generation_ ∧
      s'.poll_messages_ = s.poll_messages_ ∧ s'.db_polls_ = s.db_polls_ ∧
      (∀ res, on_set_poll_answer s' false pid pa.generation_ res =
        some ({ s' with
                  pending_answers_ := alistErase s'.pending_answers_ pid,
                  binlog_ := if pa.logevent_id_ ≠ 0 then alistErase s'.binlog_ pa.logevent_id_
                             else s'.binlog_ },
              (pa.promises_ ++ [pr]).map (fun p => Event.resolve p res))) := by
  refine ⟨{ s with pending_answers_ := alistSet s.pending_answers_ pid { pa with promises_ := pa.promises_ ++ [pr] } }, ?_, rfl, rfl, rfl, rfl, rfl, rfl, rfl, ?_⟩
  · simp [do_set_poll_answer, hpa, hne, heq]
  · intro res
    simp [on_set_poll_answer, alistGet_set_self, hne]

/-- Claim C3: a completion arriving when no pending answer exists for the
poll, or when the pending answer's generation does not match, changes nothing:
the state (registry, pending map, write-ahead log) is returned untouched and
no waiter is resolved. -/
theorem c3_stale_completion (s : ManagerState) (c : Bool) (pid : Int) (g : Nat)
    (r : VoteResult)
    (h : alistGet s.pending_answers_ pid = none ∨
         ∃ pa, alistGet s.pending_answers_ pid = some pa ∧ pa.promises_ ≠ [] ∧
           pa.generation_ ≠ g) :
    on_set_poll_answer s c pid g r = some (s, []) := by
  by_cases hc : c = true ∧ r ≠ VoteResult.ok
  · simp [on_set_poll_answer, hc]
  · rcases h with h | ⟨pa, hpa, hne, hg⟩
    · simp [on_set_poll_answer, hc, h]
    · simp [on_set_poll_answer, hc, hpa, hne, hg]

/-- Pending answer used by concrete witness states. -/
def wpa : PendingAnswer :=
  { options_ := ["0"], promises_ := [4], generation_ := 2, logevent_id_ := 0,
    query_ref_ := some 2 }

/-- Concrete manager state used by the C3 witness: one pending answer at
generation 2 for poll 1. -/
def wst : ManagerState :=
  { polls_ := [], pending_answers_ := [(1, wpa)], poll_messages_ := [],
    current_generation_ := 2, current_local_poll_id_ := 0, binlog_ := [],
    next_logevent_id_ := 1, db_polls_ := [], loaded_from_database_polls_ := [],
    use_message_db := false }

theorem c3_stale_completion_witness :
    on_set_poll_answer wst false 1 1 VoteResult.ok = some (wst, []) :=
  c3_stale_completion wst false 1 1 VoteResult.ok
    (Or.inr ⟨wpa, by decide, by decide, by decide⟩)

theorem c2_coalesce_witness :
    ∃ s', do_set_poll_answer wst 1 5 ["0"] 0 9 = some (s', []) ∧
      s'.pending_answers_ =
        alistSet wst.pending_answers_ 1 { wpa with promises_ := wpa.promises_ ++ [9] } ∧
      s'.polls_ = wst.polls_ ∧ s'.binlog_ = wst.binlog_ ∧
      s'.next_logevent_id_ = wst.next_logevent_id_ ∧
      s'.current_generation_ = wst.current_generation_ ∧
      s'.poll_messages_ = wst.poll_messages_ ∧ s'.db_polls_ = wst.db_polls_ ∧
      (∀ res, on_set_poll_answer s' false 1 wpa.generation_ res =
        some ({ s' with
                  pending_answers_ := alistErase s'.pending_answers_ 1,
                  binlog_ := if wpa.logevent_id_ ≠ 0 then alistErase s'.binlog_ wpa.logevent_id_
                             else s'.binlog_ },
              (wpa.promises_ ++ [9]).map (fun p => Event.resolve p res))) :=
  c2_coalesce wst 1 5 ["0"] 9 wpa (by decide) (by decide) (by decide)

theorem map_option_ids_invalid (opts : List PollOption) (ids : List Int)
    (h : ∃ i ∈ ids, i < 0 ∨ (opts.length : Int) ≤ i) :
    map_option_ids opts ids = none := by
  induction ids with
  | nil => simp at h
  | cons j rest ih =>
    obtain ⟨i, hmem, hbad⟩ := h
    rcases List.mem_cons.mp hmem with hij | hmem'
    · subst hij
      have hcond : ¬ (0 ≤ i ∧ i.toNat < opts.length) := by
        rcases hbad with hneg | hbig
        · intro hc
          omega
        · intro hc
          omega
      simp [map_option_ids, hcond]
    · have hrest := ih ⟨i, hmem', hbad⟩
      by_cases hcond : 0 ≤ j ∧ j.toNat < opts.length
      · simp [map_option_ids, hcond, hrest]
      · simp [map_option_ids, hcond]

/-- Claim C8: every validation failure of `set_poll_answer` — more than one
option selected, a local poll id, a closed poll, or an out-of-range option
index — resolves the caller's completion with an error and mutates nothing:
the state is returned untouched (registry, pending-answer map, write-ahead
log and message index unchanged) and the only event is the error resolution,
so no remote call is issued. -/
theorem c8_validation_errors (s : ManagerState) (pid : Int) (mid : Nat)
    (ids : List Int) (pr : Nat)
    (h : ids.length > 1 ∨ is_local_poll_id pid ∨
         (∃ poll, alistGet s.polls_ pid = some poll ∧
           (poll.is_closed = true ∨ ∃ i ∈ ids, i < 0 ∨ (poll.options.length : Int) ≤ i))) :
    ∃ c m, set_poll_answer s pid mid ids pr =
      some (s, [Event.resolve pr (VoteResult.error c m)]) := by
  by_cases h1 : ids.length > 1
  · exact ⟨400, "Cannot choose more than 1 option", by simp [set_poll_answer, h1]⟩
  · by_cases h2 : is_local_poll_id pid
    · exact ⟨5, "Poll cannot be answered", by simp [set_poll_answer, h1, h2]⟩
    · rcases h with h | h | ⟨poll, hpoll, hrest⟩
      · exact absurd h h1
      · exact absurd h h2
      · by_cases h3 : poll.is_closed = true
        · exact ⟨400, "Cannot answer closed poll", by simp [set_poll_answer, h1, h2, hpoll, h3]⟩
        · rcases hrest with h4 | h4
          · exact absurd h4 h3
          · have hm := map_option_ids_invalid poll.options ids ⟨h4.choose, h4.choose_spec⟩
            exact ⟨400, "Invalid option id specified", by simp [set_poll_answer, h1, h2, hpoll, h3, hm]⟩

/-- The local two-option poll of the C8 witness scenario. -/
def c8poll : Poll :=
  { question := "q",
    options := [{ text := "A", data := "0", voter_count := 0, is_chosen := false },
                { text := "B", data := "1", voter_count := 0, is_chosen := false }],
    total_voter_count := 0, is_closed := false }

/-- Concrete state for the C8 witness: a local poll (id -1) with two options,
as in the spec scenario. -/
def c8ws : ManagerState :=
  { polls_ := [(-1, c8poll)],
    pending_answers_ := [], poll_messages_ := [], current_generation_ := 0,
    current_local_poll_id_ := -1, binlog_ := [], next_logevent_id_ := 1,
    db_polls_ := [], loaded_from_database_polls_ := [], use_message_db := false }

theorem c8_validation_errors_witness :
    ∃ c m, set_poll_answer c8ws (-1) 5 [0] 9 =
      some (c8ws, [Event.resolve 9 (VoteResult.error c m)]) :=
  c8_validation_errors c8ws (-1) 5 [0] 9 (Or.inr (Or.inl (by decide)))

/-- Claim C1: submitting a vote with different chosen keys while a pending
answer with waiters is in flight supersedes it: the old remote call is
cancelled, every displaced waiter is resolved with success (never an error),
a pending answer with the new keys is installed under generation
`current_generation_ + 1` (strictly above the running generation maximum and
in particular above the superseded answer's generation), exactly one new
remote vote call is issued, and the completion of that call at the new
generation resolves exactly the new waiter. -/
theorem c1_supersession (s : ManagerState) (pid : Int) (mid : Nat) (opts : List String)
    (pr : Nat) (pa : PendingAnswer) (ref : Nat)
    (hpa : alistGet s.pending_answers_ pid = some pa)
    (hne : pa.promises_ ≠ [])
    (hdiff : pa.options_ ≠ opts)
    (href : pa.query_ref_ = some ref)
    (hgen : pa.generation_ ≤ s.current_generation_)
    (hwal : s.use_message_db = true → pa.generation_ ≠ 0 ∧ pa.logevent_id_ ≠ 0) :
    ∃ binlog2 lid,
      do_set_poll_answer s pid mid opts 0 pr =
        some ({ s with pending_answers_ := alistSet s.pending_answers_ pid { options_ := opts, promises_ := [pr], generation_ := s.current_generation_ + 1, logevent_id_ := lid, query_ref_ := some (s.current_generation_ + 1) }, current_generation_ := s.current_generation_ + 1, binlog_ := binlog2 },
              Event.cancelQuery ref :: (pa.promises_.map (fun p => Event.resolve p VoteResult.ok) ++ notify_on_poll_update s pid ++ [Event.sendVote pid mid opts (s.current_generation_ + 1)])) ∧
      pa.generation_ < s.current_generation_ + 1 ∧
      (∀ res, (on_set_poll_answer ({ s with pending_answers_ := alistSet s.pending_answers_ pid { options_ := opts, promises_ := [pr], generation_ := s.current_generation_ + 1, logevent_id_ := lid, query_ref_ := some (s.current_generation_ + 1) }, current_generation_ := s.current_generation_ + 1, binlog_ := binlog2 }) false pid (s.current_generation_ + 1) res).map Prod.snd =
        some [Event.resolve pr res]) := by
  have hcond : ¬ (pa.promises_ ≠ [] ∧ pa.options_ = opts) := by
    intro hc
    exact hdiff hc.2
  by_cases hdb : s.use_message_db = true
  · obtain ⟨hg0, hl0⟩ := hwal hdb
    refine ⟨alistSet s.binlog_ pa.logevent_id_ { poll_id := pid, full_message_id := mid, options_ := opts }, pa.logevent_id_, ?_, by omega, ?_⟩
    · simp [do_set_poll_answer, hpa, hcond, hdiff, wal_step, hdb, hg0, hl0, cancel_step, hne, href]
    · intro res
      simp [on_set_poll_answer, alistGet_set_self]
  · refine ⟨s.binlog_, 0, ?_, by omega, ?_⟩
    · simp [do_set_poll_answer, hpa, hcond, hdiff, wal_step, hdb, cancel_step, hne, href]
    · intro res
      simp [on_set_poll_answer, alistGet_set_self]

theorem c1_supersession_witness :
    ∃ binlog2 lid,
      do_set_poll_answer wst 1 5 ["1"] 0 9 =
        some ({ wst with pending_answers_ := alistSet wst.pending_answers_ 1 { options_ := ["1"], promises_ := [9], generation_ := wst.current_generation_ + 1, logevent_id_ := lid, query_ref_ := some (wst.current_generation_ + 1) }, current_generation_ := wst.current_generation_ + 1, binlog_ := binlog2 },
              Event.cancelQuery 2 :: (wpa.promises_.map (fun p => Event.resolve p VoteResult.ok) ++ notify_on_poll_update wst 1 ++ [Event.sendVote 1 5 ["1"] (wst.current_generation_ + 1)])) ∧
      wpa.generation_ < wst.current_generation_ + 1 ∧
      (∀ res, (on_set_poll_answer ({ wst with pending_answers_ := alistSet wst.pending_answers_ 1 { options_ := ["1"], promises_ := [9], generation_ := wst.current_generation_ + 1, logevent_id_ := lid, query_ref_ := some (wst.current_generation_ + 1) }, current_generation_ := wst.current_generation_ + 1, binlog_ := binlog2 }) false 1 (wst.current_generation_ + 1) res).map Prod.snd =
        some [Event.resolve 9 res]) :=
  c1_supersession wst 1 5 ["1"] 9 wpa 2 (by decide) (by decide) (by decide)
    (by decide) (by decide) (by decide)

/-- Claim C4: replaying a persisted vote-submission log entry (message
database enabled, fresh pending map for the poll) drives the coalescing core
with the entry's own id: the write-ahead log is left exactly as it was (no
entry appended, none rewritten), the installed pending answer records the
replayed entry's id and the no-op completion as its only waiter, and the
emitted events contain exactly one remote vote call. -/
theorem c4_replay_reuses_logevent (s : ManagerState) (id : Nat) (e : LogEntry) (np : Nat)
    (hdb : s.use_message_db = true) (hid : id ≠ 0)
    (hnp : alistGet s.pending_answers_ e.poll_id = none) :
    replay_event s id e np =
      some ({ s with pending_answers_ := alistSet s.pending_answers_ e.poll_id { options_ := e.options_, promises_ := [np], generation_ := s.current_generation_ + 1, logevent_id_ := id, query_ref_ := some (s.current_generation_ + 1) }, current_generation_ := s.current_generation_ + 1 },
            notify_on_poll_update s e.poll_id ++
              [Event.sendVote e.poll_id e.full_message_id e.options_ (s.current_generation_ + 1)]) := by
  simp [replay_event, hdb, do_set_poll_answer, hnp, PendingAnswer.empty, wal_step, hid,
    cancel_step]

/-- Concrete state for the C4 witness: empty pending map, message database
enabled, one persisted log entry with id 7. -/
def c4ws : ManagerState :=
  { polls_ := [], pending_answers_ := [], poll_messages_ := [],
    current_generation_ := 0, current_local_poll_id_ := 0,
    binlog_ := [(7, { poll_id := 1, full_message_id := 5, options_ := ["0"] })],
    next_logevent_id_ := 8, db_polls_ := [], loaded_from_database_polls_ := [],
    use_message_db := true }

theorem c4_replay_reuses_logevent_witness :
    replay_event c4ws 7 { poll_id := 1, full_message_id := 5, options_ := ["0"] } 0 =
      some ({ c4ws with pending_answers_ := alistSet c4ws.pending_answers_ 1 { options_ := ["0"], promises_ := [0], generation_ := c4ws.current_generation_ + 1, logevent_id_ := 7, query_ref_ := some (c4ws.current_generation_ + 1) }, current_generation_ := c4ws.current_generation_ + 1 },
            notify_on_poll_update c4ws 1 ++
              [Event.sendVote 1 5 ["0"] (c4ws.current_generation_ + 1)]) :=
  c4_replay_reuses_logevent c4ws 7 { poll_id := 1, full_message_id := 5, options_ := ["0"] } 0
    (by decide) (by decide) (by decide)

/-- Poll with a confirmed chosen option, used by the C7 counterexample. -/
def c7poll : Poll :=
  { question := "q",
    options := [{ text := "A", data := "0", voter_count := 5, is_chosen := true }],
    total_voter_count := 5, is_closed := false }

/-- State with a confirmed vote and a non-empty pending answer for poll 1. -/
def cex7 : ManagerState :=
  { polls_ := [(1, c7poll)], pending_answers_ := [(1, wpa)], poll_messages_ := [],
    current_generation_ := 2, current_local_poll_id_ := 0, binlog_ := [],
    next_logevent_id_ := 1, db_polls_ := [], loaded_from_database_polls_ := [],
    use_message_db := false }

theorem c7_counterexample :
    (alistGet cex7.pending_answers_ 1).isSome = true ∧
    (alistGet cex7.pending_answers_ 1).map PendingAnswer.options_ ≠ some [] ∧
    (get_poll_object cex7 1).map PollObj.total_voter_count ≠
      some (c7poll.total_voter_count + 1) := by
  decide

/-- Claim C7 amended: with a pending answer present, the rendered total is the
confirmed total plus 1 when the pending chosen-key list is non-empty, *minus 1
when some confirmed option is currently chosen* (the user's already-counted
confirmed vote is being moved, not added). -/
theorem c7_amended_total (s : ManagerState) (pid : Int) (poll : Poll) (pa : PendingAnswer)
    (hpoll : alistGet s.polls_ pid = some poll)
    (hpa : alistGet s.pending_answers_ pid = some pa) :
    (get_poll_object s pid).map PollObj.total_voter_count =
      some (poll.total_voter_count + (if pa.options_ = [] then 0 else 1) -
        (if ∃ o ∈ poll.options, o.is_chosen = true then 1 else 0)) := by
  by_cases h1 : ∃ o ∈ poll.options, o.is_chosen = true <;>
    by_cases h2 : pa.options_ = [] <;>
      (simp [get_poll_object, hpoll, hpa, h1, h2]; try ring)

theorem c7_amended_total_witness :
    (get_poll_object cex7 1).map PollObj.total_voter_count =
      some (c7poll.total_voter_count + (if wpa.options_ = [] then 0 else 1) -
        (if ∃ o ∈ c7poll.options, o.is_chosen = true then 1 else 0)) :=
  c7_amended_total cex7 1 c7poll wpa (by decide) (by decide)

/-- Closed poll used by the C6 counterexample. -/
def c6poll : Poll :=
  { question := "q", options := [], total_voter_count := 0, is_closed := true }

/-- State holding the closed poll 1. -/
def cex6 : ManagerState :=
  { polls_ := [(1, c6poll)], pending_answers_ := [], poll_messages_ := [],
    current_generation_ := 0, current_local_poll_id_ := 0, binlog_ := [],
    next_logevent_id_ := 1, db_polls_ := [], loaded_from_database_polls_ := [],
    use_message_db := false }

/-- Server payload reopening poll 1 (closed flag unset). -/
def sp6 : ServerPoll :=
  { id := 1, closed := false, question := "q", answers := [] }

/-- Trivial results payload. -/
def pr6 : PollResults :=
  { min := false, has_total_voters := false, total_voters := 0, results := [] }

theorem c6_counterexample :
    (alistGet cex6.polls_ 1).map Poll.is_closed = some true ∧
    (alistGet (on_get_poll cex6 1 (some sp6) pr6).1.polls_ 1).map Poll.is_closed =
      some false := by
  decide

/-- The poll registry, message index, durable store, load-miss set and the
database flag are untouched by the coalescing core. -/
theorem do_set_frame (s : ManagerState) (pid : Int) (mid : Nat) (opts : List String)
    (lid pr : Nat) (s' : ManagerState) (ev : List Event)
    (h : do_set_poll_answer s pid mid opts lid pr = some (s', ev)) :
    s'.polls_ = s.polls_ ∧ s'.poll_messages_ = s.poll_messages_ ∧
    s'.db_polls_ = s.db_polls_ ∧
    s'.loaded_from_database_polls_ = s.loaded_from_database_polls_ ∧
    s'.use_message_db = s.use_message_db := by
  simp only [do_set_poll_answer] at h
  split at h
  · rw [Option.some.injEq, Prod.mk.injEq] at h
    obtain ⟨h1, h2⟩ := h
    subst h1
    exact ⟨rfl, rfl, rfl, rfl, rfl⟩
  · split at h
    · simp at h
    · split at h
      · simp at h
      · split at h
        · simp at h
        · rw [Option.some.injEq, Prod.mk.injEq] at h
          obtain ⟨h1, h2⟩ := h
          subst h1
          exact ⟨rfl, rfl, rfl, rfl, rfl⟩

/-- The poll registry is untouched by the completion handler. -/
theorem on_set_frame (s : ManagerState) (c : Bool) (pid : Int) (g : Nat) (r : VoteResult)
    (s' : ManagerState) (ev : List Event)
    (h : on_set_poll_answer s c pid g r = some (s', ev)) :
    s'.polls_ = s.polls_ := by
  unfold on_set_poll_answer at h
  split at h
  · rw [Option.some.injEq, Prod.mk.injEq] at h
    exact h.1 ▸ rfl
  · split at h
    · rw [Option.some.injEq, Prod.mk.injEq] at h
      exact h.1 ▸ rfl
    · split at h
      · simp at h
      · split at h
        · rw [Option.some.injEq, Prod.mk.injEq] at h
          exact h.1 ▸ rfl
        · rw [Option.some.injEq, Prod.mk.injEq] at h
          obtain ⟨h1, h2⟩ := h
          subst h1
          rfl

/-- The poll registry is untouched by validation or the coalescing core of
`set_poll_answer`. -/
theorem set_poll_answer_polls (s : ManagerState) (pid : Int) (mid : Nat) (ids : List Int)
    (pr : Nat) (s' : ManagerState) (ev : List Event)
    (h : set_poll_answer s pid mid ids pr = some (s', ev)) :
    s'.polls_ = s.polls_ := by
  unfold set_poll_answer at h
  split at h
  · rw [Option.some.injEq, Prod.mk.injEq] at h
    exact h.1 ▸ rfl
  · split at h
    · rw [Option.some.injEq, Prod.mk.injEq] at h
      exact h.1 ▸ rfl
    · split at h
      · simp at h
      · split at h
        · rw [Option.some.injEq, Prod.mk.injEq] at h
          exact h.1 ▸ rfl
        · split at h
          · rw [Option.some.injEq, Prod.mk.injEq] at h
            exact h.1 ▸ rfl
          · exact (do_set_frame _ _ _ _ _ _ _ _ h).1

/-- Replay either erases a stray log entry or goes through the coalescing
core; the poll registry is untouched either way. -/
theorem replay_event_polls (s : ManagerState) (id : Nat) (e : LogEntry) (np : Nat)
    (s' : ManagerState) (ev : List Event)
    (h : replay_event s id e np = some (s', ev)) :
    s'.polls_ = s.polls_ := by
  unfold replay_event at h
  split at h
  · exact (do_set_frame _ _ _ _ _ _ _ _ h).1
  · rw [Option.some.injEq, Prod.mk.injEq] at h
    obtain ⟨h1, h2⟩ := h
    subst h1
    rfl

/-- The merged poll's closed flag after a results-only merge. -/
theorem apply_poll_results_closed (p : Poll) (pr : PollResults) :
    (apply_poll_results p pr).1.is_closed = p.is_closed := by
  unfold apply_poll_results
  split <;> rfl

/-- The merged poll's closed flag mirrors the server payload's flag. -/
theorem apply_poll_server_closed (p : Poll) (spv : ServerPoll) :
    (apply_poll_server p spv).1.is_closed = spv.closed := by
  unfold apply_poll_server
  simp only []
  split <;> split <;> split <;> simp_all

theorem save_poll_polls (s : ManagerState) (pid : Int) (p : Poll) :
    (save_poll s pid p).1.polls_ = s.polls_ := by
  unfold save_poll
  split <;> rfl

theorem get_poll_force_hit (s : ManagerState) (pid : Int) (p : Poll)
    (h : alistGet s.polls_ pid = some p) : get_poll_force s pid = (s, some p) := by
  simp [get_poll_force, h]

theorem get_poll_force_polls_other (s : ManagerState) (pid q : Int) (hne : q ≠ pid) :
    alistGet (get_poll_force s pid).1.polls_ q = alistGet s.polls_ q := by
  unfold get_poll_force
  simp only []
  split
  · rfl
  · split
    · rfl
    · split
      · rfl
      · split
        · rfl
        · exact alistGet_set_ne s.polls_ pid q _ hne

theorem on_get_poll_polls_other (s : ManagerState) (pid0 : Int) (sp : Option ServerPoll)
    (pr : PollResults) (q : Int) (hne : q ≠ resolve_poll_id pid0 sp) :
    alistGet (on_get_poll s pid0 sp pr).1.polls_ q = alistGet s.polls_ q := by
  unfold on_get_poll
  simp only []
  split
  · rfl
  · split
    · rfl
    · split
      · exact get_poll_force_polls_other s _ q hne
      · split
        · rw [save_poll_polls]
          rw [alistGet_set_ne _ _ _ _ hne]
          exact get_poll_force_polls_other s _ q hne
        · rw [alistGet_set_ne _ _ _ _ hne]
          exact get_poll_force_polls_other s _ q hne

theorem on_get_poll_closed_self (s : ManagerState) (pid0 : Int) (sp : Option ServerPoll)
    (pr : PollResults) (p : Poll)
    (hq : alistGet s.polls_ (resolve_poll_id pid0 sp) = some p) (hc : p.is_closed = true)
    (hsp : sp = none ∨ ∃ spv, sp = some spv ∧ spv.closed = true) :
    (alistGet (on_get_poll s pid0 sp pr).1.polls_ (resolve_poll_id pid0 sp)).map
      Poll.is_closed = some true := by
  have hfp := get_poll_force_hit s (resolve_poll_id pid0 sp) p hq
  unfold on_get_poll
  simp only []
  split
  · simp [hq, hc]
  · split
    · simp [hq, hc]
    · rw [hfp]
      simp only []
      have hm : ∀ pr2 : PollResults, (merge_poll p sp pr2).1.is_closed = true := by
        intro pr2
        unfold merge_poll
        simp only []
        rw [apply_poll_results_closed]
        rcases hsp with h | ⟨spv, hsp2, hcl⟩
        · subst h
          simpa using hc
        · subst hsp2
          simp only []
          rw [apply_poll_server_closed]
          exact hcl
      split
      · rw [save_poll_polls, alistGet_set_self]
        simp [hm pr]
      · rw [alistGet_set_self]
        simp [hm pr]

/-- Claim C6 amended: `is_closed` is monotone under every operation except
server reconciliation with a payload whose closed flag is unset — `close_poll`,
vote submission, the completion handler and crash replay never clear it, and
`on_get_poll` preserves it whenever no server poll payload is supplied or the
supplied payload carries the closed flag (the counterexample shows a payload
with the flag unset reopens the poll). -/
theorem c6_amended_closed_monotone (s : ManagerState) (q : Int) (p : Poll)
    (hq : alistGet s.polls_ q = some p) (hc : p.is_closed = true) :
    (∀ pid s' ev, close_poll s pid = some (s', ev) →
       (alistGet s'.polls_ q).map Poll.is_closed = some true) ∧
    (∀ pid mid ids pr s' ev, set_poll_answer s pid mid ids pr = some (s', ev) →
       (alistGet s'.polls_ q).map Poll.is_closed = some true) ∧
    (∀ c pid g r s' ev, on_set_poll_answer s c pid g r = some (s', ev) →
       (alistGet s'.polls_ q).map Poll.is_closed = some true) ∧
    (∀ id e np s' ev, replay_event s id e np = some (s', ev) →
       (alistGet s'.polls_ q).map Poll.is_closed = some true) ∧
    (∀ pid0 sp pr, (sp = none ∨ ∃ spv, sp = some spv ∧ spv.closed = true) →
       (alistGet (on_get_poll s pid0 sp pr).1.polls_ q).map Poll.is_closed = some true) := by
  refine ⟨?_, ?_, ?_, ?_, ?_⟩
  · intro pid s' ev h
    unfold close_poll at h
    split at h
    · simp at h
    · rename_i poll hpoll
      split at h
      · rw [Option.some.injEq, Prod.mk.injEq] at h
        obtain ⟨h1, h2⟩ := h
        subst h1
        simp [hq, hc]
      · by_cases hqp : q = pid
        · subst hqp
          rw [hq] at hpoll
          injection hpoll with hpoll
          subst hpoll
          split at h <;>
          · rw [Option.some.injEq, Prod.mk.injEq] at h
            obtain ⟨h1, h2⟩ := h
            subst h1
            simp only [save_poll_polls, alistGet_set_self]
            simp
        · split at h <;>
          · rw [Option.some.injEq, Prod.mk.injEq] at h
            obtain ⟨h1, h2⟩ := h
            subst h1
            simp only [save_poll_polls, alistGet_set_ne _ _ _ _ hqp]
            simp [hq, hc]
  · intro pid mid ids pr s' ev h
    rw [set_poll_answer_polls s pid mid ids pr s' ev h, hq]
    simp [hc]
  · intro c pid g r s' ev h
    rw [on_set_frame s c pid g r s' ev h, hq]
    simp [hc]
  · intro id e np s' ev h
    rw [replay_event_polls s id e np s' ev h, hq]
    simp [hc]
  · intro pid0 sp pr hsp
    by_cases hqp : q = resolve_poll_id pid0 sp
    · subst hqp
      exact on_get_poll_closed_self s pid0 sp pr p hq hc hsp
    · rw [on_get_poll_polls_other s pid0 sp pr q hqp, hq]
      simp [hc]

theorem c6_amended_closed_monotone_witness :
    (∀ pid s' ev, close_poll cex6 pid = some (s', ev) →
       (alistGet s'.polls_ 1).map Poll.is_closed = some true) ∧
    (∀ pid mid ids pr s' ev, set_poll_answer cex6 pid mid ids pr = some (s', ev) →
       (alistGet s'.polls_ 1).map Poll.is_closed = some true) ∧
    (∀ c pid g r s' ev, on_set_poll_answer cex6 c pid g r = some (s', ev) →
       (alistGet s'.polls_ 1).map Poll.is_closed = some true) ∧
    (∀ id e np s' ev, replay_event cex6 id e np = some (s', ev) →
       (alistGet s'.polls_ 1).map Poll.is_closed = some true) ∧
    (∀ pid0 sp pr, (sp = none ∨ ∃ spv, sp = some spv ∧ spv.closed = true) →
       (alistGet (on_get_poll cex6 pid0 sp pr).1.polls_ 1).map Poll.is_closed = some true) :=
  c6_amended_closed_monotone cex6 1 c6poll (by decide) (by decide)

/-- The option produced by one tally entry (first projection of
`apply_result_to_option`). -/
def rstep (is_min : Bool) (r : PollAnswerVoters) (o : PollOption) : PollOption :=
  (apply_result_to_option is_min r o).1

theorem apply_result_fst (m : Bool) (r : PollAnswerVoters) (os : List PollOption) :
    (apply_result m r os).1 = os.map (rstep m r) := by
  induction os with
  | nil => rfl
  | cons o os ih => simp [apply_result, rstep, ih]

theorem apply_results_list_fst (m : Bool) (os : List PollOption)
    (rs : List PollAnswerVoters) :
    (apply_results_list m os rs).1 = os.map (fun o => rs.foldl (fun acc r => rstep m r acc) o) := by
  induction rs generalizing os with
  | nil => simp [apply_results_list]
  | cons r rs ih =>
    simp only [apply_results_list, ih, apply_result_fst, List.map_map, List.foldl_cons]
    rfl

theorem rstep_min (r : PollAnswerVoters) (o : PollOption) :
    rstep true r o =
      if o.data = r.option then { o with voter_count := r.voters } else o := by
  obtain ⟨t, d, v, c⟩ := o
  by_cases h1 : d = r.option
  · subst h1
    by_cases h2 : r.voters = v
    · subst h2
      simp [rstep, apply_result_to_option]
    · simp [rstep, apply_result_to_option, h2]
  · simp [rstep, apply_result_to_option, h1]

theorem rstep_min_is_chosen (r : PollAnswerVoters) (o : PollOption) :
    (rstep true r o).is_chosen = o.is_chosen := by
  rw [rstep_min]
  split <;> rfl

/-- Claim C9: applying tally entries flagged minimal/anonymized leaves every
chosen flag unchanged, and acts on the option list exactly as the per-option
fold that overwrites the voter count of each key-matching option with the
incoming value and touches nothing else (so an entry matching no option key
changes nothing, and an option matching no entry keeps its count). -/
theorem c9_min_results (os : List PollOption) (rs : List PollAnswerVoters) :
    (apply_results_list true os rs).1.map PollOption.is_chosen =
      os.map PollOption.is_chosen ∧
    (apply_results_list true os rs).1 =
      os.map (fun o => rs.foldl
        (fun acc r => if acc.data = r.option then { acc with voter_count := r.voters } else acc) o) := by
  have hchosen : ∀ o : PollOption,
      (rs.foldl (fun acc r => rstep true r acc) o).is_chosen = o.is_chosen := by
    intro o
    induction rs generalizing o with
    | nil => rfl
    | cons r rs ih =>
      rw [List.foldl_cons, ih, rstep_min_is_chosen]
  have hfold : ∀ o : PollOption, rs.foldl (fun acc r => rstep true r acc) o =
      rs.foldl (fun acc r => if acc.data = r.option then { acc with voter_count := r.voters } else acc) o := by
    clear hchosen
    intro o
    induction rs generalizing o with
    | nil => rfl
    | cons r rs ih => simp [List.foldl_cons, rstep_min, ih]
  constructor
  · rw [apply_results_list_fst, List.map_map]
    induction os with
    | nil => rfl
    | cons o os ih => simp [hchosen, ih]
  · rw [apply_results_list_fst]
    induction os with
    | nil => rfl
    | cons o os ih => simp [hfold, ih]

/-- Every pending answer in the map carries at least one waiter. -/
def pending_nonempty (s : ManagerState) : Prop :=
  ∀ x ∈ s.pending_answers_, x.2.promises_ ≠ []

theorem do_set_pending (s : ManagerState) (pid : Int) (mid : Nat) (opts : List String)
    (lid pr : Nat) (s' : ManagerState) (ev : List Event)
    (h : do_set_poll_answer s pid mid opts lid pr = some (s', ev)) :
    ∃ v : PendingAnswer, v.promises_ ≠ [] ∧
      s'.pending_answers_ = alistSet s.pending_answers_ pid v := by
  simp only [do_set_poll_answer] at h
  split at h
  · rw [Option.some.injEq, Prod.mk.injEq] at h
    obtain ⟨h1, h2⟩ := h
    subst h1
    exact ⟨_, by simp, rfl⟩
  · split at h
    · simp at h
    · split at h
      · simp at h
      · split at h
        · simp at h
        · rw [Option.some.injEq, Prod.mk.injEq] at h
          obtain ⟨h1, h2⟩ := h
          subst h1
          exact ⟨_, by simp, rfl⟩

theorem on_set_pending (s : ManagerState) (c : Bool) (pid : Int) (g : Nat) (r : VoteResult)
    (s' : ManagerState) (ev : List Event)
    (h : on_set_poll_answer s c pid g r = some (s', ev)) :
    s'.pending_answers_ = s.pending_answers_ ∨
    s'.pending_answers_ = alistErase s.pending_answers_ pid := by
  unfold on_set_poll_answer at h
  split at h
  · rw [Option.some.injEq, Prod.mk.injEq] at h
    exact Or.inl (h.1 ▸ rfl)
  · split at h
    · rw [Option.some.injEq, Prod.mk.injEq] at h
      exact Or.inl (h.1 ▸ rfl)
    · split at h
      · simp at h
      · split at h
        · rw [Option.some.injEq, Prod.mk.injEq] at h
          exact Or.inl (h.1 ▸ rfl)
        · rw [Option.some.injEq, Prod.mk.injEq] at h
          obtain ⟨h1, h2⟩ := h
          subst h1
          exact Or.inr rfl

theorem set_poll_answer_pending (s : ManagerState) (pid : Int) (mid : Nat)
    (ids : List Int) (pr : Nat) (s' : ManagerState) (ev : List Event)
    (h : set_poll_answer s pid mid ids pr = some (s', ev)) :
    s'.pending_answers_ = s.pending_answers_ ∨
    ∃ (pid2 : Int) (v : PendingAnswer), v.promises_ ≠ [] ∧
      s'.pending_answers_ = alistSet s.pending_answers_ pid2 v := by
  unfold set_poll_answer at h
  split at h
  · rw [Option.some.injEq, Prod.mk.injEq] at h
    exact Or.inl (h.1 ▸ rfl)
  · split at h
    · rw [Option.some.injEq, Prod.mk.injEq] at h
      exact Or.inl (h.1 ▸ rfl)
    · split at h
      · simp at h
      · split at h
        · rw [Option.some.injEq, Prod.mk.injEq] at h
          exact Or.inl (h.1 ▸ rfl)
        · split at h
          · rw [Option.some.injEq, Prod.mk.injEq] at h
            exact Or.inl (h.1 ▸ rfl)
          · obtain ⟨v, hv, hset⟩ := do_set_pending _ _ _ _ _ _ _ _ h
            exact Or.inr ⟨pid, v, hv, hset⟩

theorem register_pending (s : ManagerState) (pid : Int) (m : Nat) (s' : ManagerState)
    (h : register_poll s pid m = some s') :
    s'.pending_answers_ = s.pending_answers_ := by
  unfold register_poll at h
  split at h
  · simp at h
  · rw [Option.some.injEq] at h
    exact h ▸ rfl

theorem unregister_pending (s : ManagerState) (pid : Int) (m : Nat) (s' : ManagerState)
    (h : unregister_poll s pid m = some s') :
    s'.pending_answers_ = s.pending_answers_ := by
  unfold unregister_poll at h
  split at h
  · simp at h
  · rw [Option.some.injEq] at h
    exact h ▸ rfl

theorem save_poll_pending (s : ManagerState) (pid : Int) (p : Poll) :
    (save_poll s pid p).1.pending_answers_ = s.pending_answers_ := by
  unfold save_poll
  split <;> rfl

theorem close_poll_pending (s : ManagerState) (pid : Int) (s' : ManagerState)
    (ev : List Event) (h : close_poll s pid = some (s', ev)) :
    s'.pending_answers_ = s.pending_answers_ := by
  unfold close_poll at h
  split at h
  · simp at h
  · split at h
    · rw [Option.some.injEq, Prod.mk.injEq] at h
      exact h.1 ▸ rfl
    · split at h
      · rw [Option.some.injEq, Prod.mk.injEq] at h
        exact h.1 ▸ rfl
      · rw [Option.some.injEq, Prod.mk.injEq] at h
        obtain ⟨h1, h2⟩ := h
        subst h1
        rw [save_poll_pending]

theorem get_poll_force_pending (s : ManagerState) (pid : Int) :
    (get_poll_force s pid).1.pending_answers_ = s.pending_answers_ := by
  unfold get_poll_force
  simp only []
  split
  · rfl
  · split
    · rfl
    · split
      · rfl
      · split <;> rfl

theorem on_get_poll_pending (s : ManagerState) (pid0 : Int) (sp : Option ServerPoll)
    (pr : PollResults) :
    (on_get_poll s pid0 sp pr).1.pending_answers_ = s.pending_answers_ := by
  unfold on_get_poll
  simp only []
  split
  · rfl
  · split
    · rfl
    · split
      · exact get_poll_force_pending s _
      · split
        · rw [save_poll_pending]
          exact get_poll_force_pending s _
        · exact get_poll_force_pending s _

theorem replay_event_pending (s : ManagerState) (id : Nat) (e : LogEntry) (np : Nat)
    (s' : ManagerState) (ev : List Event)
    (h : replay_event s id e np = some (s', ev)) :
    s'.pending_answers_ = s.pending_answers_ ∨
    ∃ (pid2 : Int) (v : PendingAnswer), v.promises_ ≠ [] ∧
      s'.pending_answers_ = alistSet s.pending_answers_ pid2 v := by
  unfold replay_event at h
  split at h
  · obtain ⟨v, hv, hset⟩ := do_set_pending _ _ _ _ _ _ _ _ h
    exact Or.inr ⟨e.poll_id, v, hv, hset⟩
  · rw [Option.some.injEq, Prod.mk.injEq] at h
    exact Or.inl (h.1 ▸ rfl)

theorem step_preserves_pending_nonempty (s s' : ManagerState) (hstep : ManagerStep s s')
    (hinv : pending_nonempty s) : pending_nonempty s' := by
  cases hstep with
  | create q opts =>
    exact hinv
  | reg pid m s' h =>
    intro x hx
    exact hinv x (register_pending s pid m s' h ▸ hx)
  | unreg pid m s' h =>
    intro x hx
    exact hinv x (unregister_pending s pid m s' h ▸ hx)
  | vote pid m ids pr s' ev h =>
    rcases set_poll_answer_pending s pid m ids pr s' ev h with heq | ⟨pid2, v, hv, heq⟩
    · intro x hx
      exact hinv x (heq ▸ hx)
    · intro x hx
      rw [heq] at hx
      rcases mem_alistSet _ _ _ _ hx with hx' | hx'
      · subst hx'
        exact hv
      · exact hinv x hx'
  | voted c pid g r s' ev h =>
    rcases on_set_pending s c pid g r s' ev h with heq | heq
    · intro x hx
      exact hinv x (heq ▸ hx)
    · intro x hx
      rw [heq] at hx
      exact hinv x (mem_alistErase _ _ _ hx)
  | closed pid s' ev h =>
    intro x hx
    exact hinv x (close_poll_pending s pid s' ev h ▸ hx)
  | server pid sp pr s' ev pid' h =>
    intro x hx
    have hp : s'.pending_answers_ = s.pending_answers_ := by
      have := on_get_poll_pending s pid sp pr
      rw [h] at this
      exact this
    exact hinv x (hp ▸ hx)
  | replay id e p s' ev h =>
    rcases replay_event_pending s id e p s' ev h with heq | ⟨pid2, v, hv, heq⟩
    · intro x hx
      exact hinv x (heq ▸ hx)
    · intro x hx
      rw [heq] at hx
      rcases mem_alistSet _ _ _ _ hx with hx' | hx'
      · subst hx'
        exact hv
      · exact hinv x hx'

theorem reachable_pending_nonempty (s : ManagerState) (h : Reachable s) :
    pending_nonempty s := by
  induction h with
  | init s h0 =>
    intro x hx
    rw [h0] at hx
    simp at hx
  | step s s' hr hstep ih =>
    exact step_preserves_pending_nonempty s s' hstep ih

/-- Claim C10: in every reachable state, each pending answer in the map has a
non-empty waiter list, and consequently the completion handler never trips its
waiter assertion — `on_set_poll_answer` always returns a result. -/
theorem c10_pending_has_waiters (s : ManagerState) (h : Reachable s) :
    (∀ pid pa, alistGet s.pending_answers_ pid = some pa → pa.promises_ ≠ []) ∧
    (∀ c pid g r, (on_set_poll_answer s c pid g r).isSome = true) := by
  have hinv := reachable_pending_nonempty s h
  constructor
  · intro pid pa hget
    exact hinv (pid, pa) (alistGet_mem _ _ _ hget)
  · intro c pid g r
    unfold on_set_poll_answer
    split
    · rfl
    · cases hget : alistGet s.pending_answers_ pid with
      | none => rfl
      | some pa =>
        have hne : pa.promises_ ≠ [] := hinv (pid, pa) (alistGet_mem _ _ _ hget)
        simp only []
        split
        next hemp => exact absurd hemp hne
        next hemp => split <;> rfl

theorem c10_pending_has_waiters_witness :
    (∀ pid pa, alistGet c4ws.pending_answers_ pid = some pa → pa.promises_ ≠ []) ∧
    (∀ c pid g r, (on_set_poll_answer c4ws c pid g r).isSome = true) :=
  c10_pending_has_waiters c4ws (Reachable.init c4ws rfl)

/-- Poll used by the C5 counterexample. -/
def c5poll : Poll :=
  { question := "q",
    options := [{ text := "A", data := "0", voter_count := 5, is_chosen := true }],
    total_voter_count := 5, is_closed := false }

/-- State holding poll 1 with one registered message (so notifications are
observable). -/
def cex5 : ManagerState :=
  { polls_ := [(1, c5poll)], pending_answers_ := [], poll_messages_ := [(1, [7])],
    current_generation_ := 0, current_local_poll_id_ := 0, binlog_ := [],
    next_logevent_id_ := 1, db_polls_ := [], loaded_from_database_polls_ := [],
    use_message_db := false }

/-- Results payload with two tally entries carrying the same option key but
different voter counts. -/
def pr5 : PollResults :=
  { min := true, has_total_voters := false, total_voters := 0,
    results := [{ chosen := false, option := "0", voters := 3 },
                { chosen := false, option := "0", voters := 5 }] }

theorem c5_counterexample :
    (on_get_poll (on_get_poll cex5 1 none pr5).1 1 none pr5).2.1 =
      [Event.notifyMsg 1 7] ∧
    (on_get_poll (on_get_poll cex5 1 none pr5).1 1 none pr5).2.1 ≠ [] := by
  constructor
  · decide
  · decide

/-- Text/data correspondence between an option and its server counterpart. -/
def opt_matches (o : PollOption) (a : ServerPollAnswer) : Prop :=
  o.text = a.text ∧ o.data = a.option

theorem rstep_text (m : Bool) (r : PollAnswerVoters) (o : PollOption) :
    (rstep m r o).text = o.text := by
  unfold rstep apply_result_to_option
  simp only []
  split
  · split <;> split <;> rfl
  · rfl

theorem rstep_data (m : Bool) (r : PollAnswerVoters) (o : PollOption) :
    (rstep m r o).data = o.data := by
  unfold rstep apply_result_to_option
  simp only []
  split
  · split <;> split <;> rfl
  · rfl

theorem rstep_nomatch (m : Bool) (r : PollAnswerVoters) (o : PollOption)
    (h : o.data ≠ r.option) : rstep m r o = o := by
  simp [rstep, apply_result_to_option, h]

theorem arto_nomatch (m : Bool) (r : PollAnswerVoters) (o : PollOption)
    (h : o.data ≠ r.option) : apply_result_to_option m r o = (o, false) := by
  simp [apply_result_to_option, h]

theorem arto_self (m : Bool) (r : PollAnswerVoters) (o : PollOption) :
    apply_result_to_option m r (rstep m r o) = (rstep m r o, false) := by
  by_cases hd : o.data = r.option
  · obtain ⟨t, d, v, c⟩ := o
    simp only at hd
    subst hd
    cases m with
    | false =>
      by_cases h2 : r.chosen = c
      · subst h2
        by_cases h3 : r.voters = v
        · subst h3
          simp [rstep, apply_result_to_option]
        · simp [rstep, apply_result_to_option, h3]
      · by_cases h3 : r.voters = v
        · simp [rstep, apply_result_to_option, h2, Ne.symm h2, h3]
        · simp [rstep, apply_result_to_option, h2, Ne.symm h2, h3]
    | true =>
      by_cases h3 : r.voters = v
      · subst h3
        simp [rstep, apply_result_to_option]
      · simp [rstep, apply_result_to_option, h3]
  · rw [rstep_nomatch m r o hd]
    exact arto_nomatch m r o hd

theorem arto_frame (m : Bool) (r r2 : PollAnswerVoters) (o : PollOption)
    (hkey : r2.option ≠ r.option)
    (h : apply_result_to_option m r o = (o, false)) :
    apply_result_to_option m r (rstep m r2 o) = (rstep m r2 o, false) := by
  by_cases hd : o.data = r2.option
  · have hnd : (rstep m r2 o).data ≠ r.option := by
      rw [rstep_data, hd]
      exact hkey
    exact arto_nomatch m r _ hnd
  · rw [rstep_nomatch m r2 o hd]
    exact h

theorem apply_result_eq_self_iff (m : Bool) (r : PollAnswerVoters) (os : List PollOption) :
    apply_result m r os = (os, false) ↔
      ∀ o ∈ os, apply_result_to_option m r o = (o, false) := by
  induction os with
  | nil => simp [apply_result]
  | cons o os ih =>
    constructor
    · intro h
      rw [apply_result, Prod.mk.injEq, List.cons.injEq] at h
      obtain ⟨⟨h1, h2⟩, h3⟩ := h
      rw [Bool.or_eq_false_iff] at h3
      intro x hx
      rcases List.mem_cons.mp hx with hx | hx
      · subst hx
        exact Prod.ext h1 h3.1
      · exact ih.mp (Prod.ext h2 h3.2) x hx
    · intro h
      rw [apply_result, Prod.mk.injEq, List.cons.injEq]
      have h1 := h o (List.mem_cons_self o os)
      have h2 := ih.mpr (fun x hx => h x (List.mem_cons_of_mem o hx))
      rw [h1, h2]
      simp

theorem apply_result_self (m : Bool) (r : PollAnswerVoters) (os : List PollOption) :
    apply_result m r ((apply_result m r os).1) = ((apply_result m r os).1, false) := by
  rw [apply_result_fst]
  rw [apply_result_eq_self_iff]
  intro x hx
  obtain ⟨o, ho, rfl⟩ := List.mem_map.mp hx
  exact arto_self m r o

theorem apply_result_frame_list (m : Bool) (r r2 : PollAnswerVoters) (os : List PollOption)
    (hkey : r2.option ≠ r.option)
    (h : apply_result m r os = (os, false)) :
    apply_result m r ((apply_result m r2 os).1) = ((apply_result m r2 os).1, false) := by
  rw [apply_result_fst]
  rw [apply_result_eq_self_iff]
  intro x hx
  obtain ⟨o, ho, rfl⟩ := List.mem_map.mp hx
  exact arto_frame m r r2 o hkey ((apply_result_eq_self_iff m r os).mp h o ho)

theorem apply_results_list_frame (m : Bool) (r : PollAnswerVoters)
    (rs : List PollAnswerVoters) (os : List PollOption)
    (hkeys : ∀ r2 ∈ rs, r2.option ≠ r.option)
    (h : apply_result m r os = (os, false)) :
    apply_result m r ((apply_results_list m os rs).1) =
      ((apply_results_list m os rs).1, false) := by
  induction rs generalizing os with
  | nil => exact h
  | cons r2 rs ih =>
    have hstep := apply_result_frame_list m r r2 os (hkeys r2 (List.mem_cons_self r2 rs)) h
    have := ih ((apply_result m r2 os).1)
      (fun x hx => hkeys x (List.mem_cons_of_mem r2 hx)) hstep
    simpa [apply_results_list] using this

theorem apply_results_list_idem (m : Bool) (rs : List PollAnswerVoters)
    (hdist : rs.Pairwise (fun a b => a.option ≠ b.option)) (os : List PollOption) :
    apply_results_list m ((apply_results_list m os rs).1) rs =
      ((apply_results_list m os rs).1, false) := by
  induction rs generalizing os with
  | nil => rfl
  | cons r rs ih =>
    rw [List.pairwise_cons] at hdist
    obtain ⟨hhead, htail⟩ := hdist
    have hos1 : apply_result m r ((apply_result m r os).1) =
        ((apply_result m r os).1, false) := apply_result_self m r os
    have hos2 : apply_result m r ((apply_results_list m ((apply_result m r os).1) rs).1) =
        ((apply_results_list m ((apply_result m r os).1) rs).1, false) :=
      apply_results_list_frame m r rs ((apply_result m r os).1)
        (fun r2 hr2 => Ne.symm (hhead r2 hr2)) hos1
    have hrs := ih htail ((apply_result m r os).1)
    simp only [apply_results_list]
    rw [hos2]
    simp only []
    rw [hrs]
    simp

theorem apply_poll_results_question (p : Poll) (pr : PollResults) :
    (apply_poll_results p pr).1.question = p.question := by
  unfold apply_poll_results
  simp only []
  split <;> rfl

theorem apply_poll_results_options (p : Poll) (pr : PollResults) :
    (apply_poll_results p pr).1.options =
      (apply_results_list pr.min p.options pr.results).1 := by
  unfold apply_poll_results
  simp only []
  split <;> rfl

theorem apply_poll_results_total (p : Poll) (pr : PollResults) :
    (apply_poll_results p pr).1.total_voter_count =
      if pr.has_total_voters = true ∧ pr.total_voters ≠ p.total_voter_count
      then pr.total_voters else p.total_voter_count := by
  unfold apply_poll_results
  simp only []
  split <;> simp_all

theorem apply_poll_results_idem (q1 : Poll) (pr : PollResults)
    (hdist : pr.results.Pairwise (fun a b => a.option ≠ b.option)) :
    apply_poll_results ((apply_poll_results q1 pr).1) pr =
      ((apply_poll_results q1 pr).1, false) := by
  have htot : ¬ (pr.has_total_voters = true ∧
      pr.total_voters ≠ (apply_poll_results q1 pr).1.total_voter_count) := by
    rw [apply_poll_results_total]
    by_cases h1 : pr.has_total_voters = true
    · by_cases h2 : pr.total_voters ≠ q1.total_voter_count <;> simp [h1, h2]
    · simp [h1]
  have hidem : apply_results_list pr.min ((apply_poll_results q1 pr).1).options pr.results =
      (((apply_poll_results q1 pr).1).options, false) := by
    rw [apply_poll_results_options]
    exact apply_results_list_idem pr.min pr.results hdist q1.options
  conv_lhs => rw [apply_poll_results]
  simp only [htot, if_false]
  rw [hidem]
  simp

theorem merge_option_post (o : PollOption) (a : ServerPollAnswer) :
    (merge_option o a).1.text = a.text ∧ (merge_option o a).1.data = a.option := by
  by_cases h1 : o.text = a.text <;> by_cases h2 : o.data = a.option <;>
    simp [merge_option, h1, h2]

theorem merge_option_fix (o : PollOption) (a : ServerPollAnswer)
    (h1 : o.text = a.text) (h2 : o.data = a.option) :
    merge_option o a = (o, false) := by
  simp [merge_option, h1, h2]

theorem merge_options_post (os : List PollOption) (as2 : List ServerPollAnswer)
    (hlen : os.length = as2.length) :
    List.Forall₂ opt_matches (merge_options os as2).1 as2 := by
  induction os generalizing as2 with
  | nil =>
    cases as2 with
    | nil => exact List.Forall₂.nil
    | cons a as2 => simp at hlen
  | cons o os ih =>
    cases as2 with
    | nil => simp at hlen
    | cons a as2 =>
      simp only [merge_options]
      exact List.Forall₂.cons ⟨(merge_option_post o a).1, (merge_option_post o a).2⟩
        (ih as2 (by simpa using hlen))

theorem get_poll_options_post (as2 : List ServerPollAnswer) :
    List.Forall₂ opt_matches (get_poll_options as2) as2 := by
  induction as2 with
  | nil => exact List.Forall₂.nil
  | cons a as2 ih => exact List.Forall₂.cons ⟨rfl, rfl⟩ ih

theorem merge_options_fix (os : List PollOption) (as2 : List ServerPollAnswer)
    (h : List.Forall₂ opt_matches os as2) : merge_options os as2 = (os, false) := by
  induction h with
  | nil => rfl
  | cons hrel hrest ih =>
    simp only [merge_options]
    rw [merge_option_fix _ _ hrel.1 hrel.2, ih]
    simp

theorem rfold_text_data (m : Bool) (rs : List PollAnswerVoters) (o : PollOption) :
    (rs.foldl (fun acc r => rstep m r acc) o).text = o.text ∧
    (rs.foldl (fun acc r => rstep m r acc) o).data = o.data := by
  induction rs generalizing o with
  | nil => exact ⟨rfl, rfl⟩
  | cons r rs ih =>
    rw [List.foldl_cons]
    refine ⟨?_, ?_⟩
    · rw [(ih (rstep m r o)).1, rstep_text]
    · rw [(ih (rstep m r o)).2, rstep_data]

theorem apply_results_forall2 (m : Bool) (rs : List PollAnswerVoters)
    (os : List PollOption) (as2 : List ServerPollAnswer)
    (h : List.Forall₂ opt_matches os as2) :
    List.Forall₂ opt_matches ((apply_results_list m os rs).1) as2 := by
  rw [apply_results_list_fst]
  induction h with
  | nil => exact List.Forall₂.nil
  | cons hrel hrest ih =>
    refine List.Forall₂.cons ⟨?_, ?_⟩ ih
    · rw [(rfold_text_data m rs _).1]
      exact hrel.1
    · rw [(rfold_text_data m rs _).2]
      exact hrel.2

theorem apply_poll_server_question (p : Poll) (sp : ServerPoll) :
    (apply_poll_server p sp).1.question = sp.question := by
  unfold apply_poll_server
  simp only []
  split <;> split <;> split <;> simp_all

theorem apply_poll_server_forall2 (p : Poll) (sp : ServerPoll) :
    List.Forall₂ opt_matches (apply_poll_server p sp).1.options sp.answers := by
  by_cases h1 : p.question = sp.question <;>
    by_cases h2 : p.options.length = sp.answers.length <;>
      by_cases h3 : sp.closed = p.is_closed <;>
        simp [apply_poll_server, h1, h2, h3] <;>
          first
            | exact merge_options_post _ _ h2
            | exact get_poll_options_post _

theorem apply_poll_server_fix (p : Poll) (sp : ServerPoll)
    (h1 : p.question = sp.question) (h2 : List.Forall₂ opt_matches p.options sp.answers)
    (h3 : sp.closed = p.is_closed) :
    apply_poll_server p sp = (p, false) := by
  have hlen := List.Forall₂.length_eq h2
  have hfix := merge_options_fix _ _ h2
  obtain ⟨q, os, tv, ic⟩ := p
  simp only at h1 h3 hlen hfix
  subst h1
  simp [apply_poll_server, hlen, hfix, h3]

theorem apply_poll_server_idem2 (p : Poll) (sp : ServerPoll) (pr : PollResults) :
    apply_poll_server ((apply_poll_results ((apply_poll_server p sp).1) pr).1) sp =
      ((apply_poll_results ((apply_poll_server p sp).1) pr).1, false) := by
  apply apply_poll_server_fix
  · rw [apply_poll_results_question, apply_poll_server_question]
  · rw [apply_poll_results_options]
    exact apply_results_forall2 _ _ _ _ (apply_poll_server_forall2 p sp)
  · rw [apply_poll_results_closed, apply_poll_server_closed]

theorem merge_poll_idem (p : Poll) (sp : Option ServerPoll) (pr : PollResults)
    (hdist : pr.results.Pairwise (fun a b => a.option ≠ b.option)) :
    merge_poll (merge_poll p sp pr).1 sp pr = ((merge_poll p sp pr).1, false) := by
  cases sp with
  | none =>
    simp only [merge_poll]
    rw [apply_poll_results_idem p pr hdist]
    simp
  | some v =>
    simp only [merge_poll]
    rw [apply_poll_server_idem2 p v pr]
    simp only []
    rw [apply_poll_results_idem ((apply_poll_server p v).1) pr hdist]
    simp

theorem get_poll_force_stable (s : ManagerState) (pid : Int) :
    get_poll_force (get_poll_force s pid).1 pid = get_poll_force s pid := by
  cases hp : alistGet s.polls_ pid with
  | some p =>
    rw [get_poll_force_hit s pid p hp]
    exact get_poll_force_hit s pid p hp
  | none =>
    by_cases hdb : s.use_message_db = false
    · have h1 : get_poll_force s pid = (s, none) := by
        simp [get_poll_force, hp, hdb]
      rw [h1]
      exact h1
    · by_cases hmem : pid ∈ s.loaded_from_database_polls_
      · have h1 : get_poll_force s pid = (s, none) := by
          simp [get_poll_force, hp, hdb, hmem]
        rw [h1]
        exact h1
      · cases hdbp : alistGet s.db_polls_ pid with
        | none =>
          have h1 : get_poll_force s pid =
              ({ s with loaded_from_database_polls_ := pid :: s.loaded_from_database_polls_ }, none) := by
            simp [get_poll_force, hp, hdb, hmem, hdbp]
          rw [h1]
          simp [get_poll_force, hp, hdb, hdbp, h1]
        | some p =>
          have h1 : get_poll_force s pid =
              ({ s with polls_ := alistSet s.polls_ pid p, loaded_from_database_polls_ := pid :: s.loaded_from_database_polls_ }, some p) := by
            simp [get_poll_force, hp, hdb, hmem, hdbp]
          rw [h1]
          exact get_poll_force_hit _ pid p (alistGet_set_self s.polls_ pid p)

theorem on_get_poll_converged (t : ManagerState) (pid0 : Int) (sp : Option ServerPoll)
    (pr : PollResults) (p0 : Poll)
    (hdist : pr.results.Pairwise (fun a b => a.option ≠ b.option))
    (hA : ¬(resolve_poll_id pid0 sp = 0 ∨ is_local_poll_id (resolve_poll_id pid0 sp)))
    (hB : ¬ server_id_mismatch (resolve_poll_id pid0 sp) sp = true)
    (hm : alistGet t.polls_ (resolve_poll_id pid0 sp) = some ((merge_poll p0 sp pr).1))
    (hcollapse : alistSet t.polls_ (resolve_poll_id pid0 sp) ((merge_poll p0 sp pr).1) =
      t.polls_) :
    on_get_poll t pid0 sp pr = (t, [], resolve_poll_id pid0 sp) := by
  unfold on_get_poll
  simp only []
  rw [if_neg hA, if_neg hB, get_poll_force_hit t _ _ hm]
  cases sp with
  | none =>
    simp only [Option.getD_some]
    rw [merge_poll_idem p0 none pr hdist]
    simp only [Bool.false_eq_true, if_false]
    rw [hcollapse]
  | some v =>
    simp only [Option.getD_some]
    rw [merge_poll_idem p0 (some v) pr hdist]
    simp only [Bool.false_eq_true, if_false]
    rw [hcollapse]

/-- Claim C5 amended: applying the same server payload and the same results a
second time is idempotent — the second application returns the state of the
first application unchanged, fires no change notification and performs no
persistence write — *provided no two incoming tally entries carry the same
option key* (the counterexample shows duplicate keys with different counts
re-dirty the poll on every application). -/
theorem c5_amended_idempotent (s : ManagerState) (pid0 : Int) (sp : Option ServerPoll)
    (pr : PollResults)
    (hdist : pr.results.Pairwise (fun a b => a.option ≠ b.option)) :
    on_get_poll (on_get_poll s pid0 sp pr).1 pid0 sp pr =
      ((on_get_poll s pid0 sp pr).1, [], (on_get_poll s pid0 sp pr).2.2) := by
  by_cases hA : resolve_poll_id pid0 sp = 0 ∨ is_local_poll_id (resolve_poll_id pid0 sp)
  · simp [on_get_poll, hA]
  · by_cases hB : server_id_mismatch (resolve_poll_id pid0 sp) sp = true
    · simp [on_get_poll, hA, hB]
    · cases hqf : (get_poll_force s (resolve_poll_id pid0 sp)).2 with
      | some p =>
        have h1 : on_get_poll s pid0 sp pr =
            (let s1 := { (get_poll_force s (resolve_poll_id pid0 sp)).1 with
                polls_ := alistSet (get_poll_force s (resolve_poll_id pid0 sp)).1.polls_
                  (resolve_poll_id pid0 sp) ((merge_poll p sp pr).1) };
             if (merge_poll p sp pr).2 then
               ((save_poll s1 (resolve_poll_id pid0 sp) ((merge_poll p sp pr).1)).1,
                notify_on_poll_update s1 (resolve_poll_id pid0 sp) ++
                  (save_poll s1 (resolve_poll_id pid0 sp) ((merge_poll p sp pr).1)).2,
                resolve_poll_id pid0 sp)
             else (s1, [], resolve_poll_id pid0 sp)) := by
          conv_lhs => rw [on_get_poll]
          simp only []
          rw [if_neg hA, if_neg hB, hqf]
          cases sp <;> rfl
        have hTp : (on_get_poll s pid0 sp pr).1.polls_ =
            alistSet (get_poll_force s (resolve_poll_id pid0 sp)).1.polls_
              (resolve_poll_id pid0 sp) ((merge_poll p sp pr).1) := by
          rw [h1]
          simp only []
          split
          · rw [save_poll_polls]
          · rfl
        have hpid2 : (on_get_poll s pid0 sp pr).2.2 = resolve_poll_id pid0 sp := by
          rw [h1]
          simp only []
          split <;> rfl
        rw [hpid2]
        refine on_get_poll_converged _ pid0 sp pr p hdist hA hB ?_ ?_
        · rw [hTp]
          exact alistGet_set_self _ _ _
        · rw [hTp]
          exact alistSet_alistSet _ _ _ _
      | none =>
        cases sp with
        | some v =>
          have h1 : on_get_poll s pid0 (some v) pr =
              (let s1 := { (get_poll_force s (resolve_poll_id pid0 (some v))).1 with
                  polls_ := alistSet (get_poll_force s (resolve_poll_id pid0 (some v))).1.polls_
                    (resolve_poll_id pid0 (some v))
                    ((merge_poll { question := "", options := [], total_voter_count := 0, is_closed := false } (some v) pr).1) };
               if (merge_poll { question := "", options := [], total_voter_count := 0, is_closed := false } (some v) pr).2 then
                 ((save_poll s1 (resolve_poll_id pid0 (some v))
                     ((merge_poll { question := "", options := [], total_voter_count := 0, is_closed := false } (some v) pr).1)).1,
                  notify_on_poll_update s1 (resolve_poll_id pid0 (some v)) ++
                    (save_poll s1 (resolve_poll_id pid0 (some v))
                      ((merge_poll { question := "", options := [], total_voter_count := 0, is_closed := false } (some v) pr).1)).2,
                  resolve_poll_id pid0 (some v))
               else (s1, [], resolve_poll_id pid0 (some v))) := by
            conv_lhs => rw [on_get_poll]
            simp only []
            rw [if_neg hA, if_neg hB, hqf]
            rfl
          have hTp : (on_get_poll s pid0 (some v) pr).1.polls_ =
              alistSet (get_poll_force s (resolve_poll_id pid0 (some v))).1.polls_
                (resolve_poll_id pid0 (some v))
                ((merge_poll { question := "", options := [], total_voter_count := 0, is_closed := false } (some v) pr).1) := by
            rw [h1]
            simp only []
            split
            · rw [save_poll_polls]
            · rfl
          have hpid2 : (on_get_poll s pid0 (some v) pr).2.2 = resolve_poll_id pid0 (some v) := by
            rw [h1]
            simp only []
            split <;> rfl
          rw [hpid2]
          refine on_get_poll_converged _ pid0 (some v) pr
            { question := "", options := [], total_voter_count := 0, is_closed := false }
            hdist hA hB ?_ ?_
          · rw [hTp]
            exact alistGet_set_self _ _ _
          · rw [hTp]
            exact alistSet_alistSet _ _ _ _
        | none =>
          have h1 : on_get_poll s pid0 none pr =
              ((get_poll_force s (resolve_poll_id pid0 none)).1, [], 0) := by
            conv_lhs => rw [on_get_poll]
            simp only []
            rw [if_neg hA, if_neg hB, hqf]
          have hstab : get_poll_force ((get_poll_force s (resolve_poll_id pid0 none)).1)
              (resolve_poll_id pid0 none) =
              ((get_poll_force s (resolve_poll_id pid0 none)).1, none) := by
            rw [get_poll_force_stable]
            exact Prod.ext rfl hqf
          rw [h1]
          conv_lhs => rw [on_get_poll]
          simp only []
          rw [if_neg hA, if_neg hB, hstab]


/-- Results payload with pairwise-distinct option keys, for the C5 witness. -/
def pr5w : PollResults :=
  { min := false, has_total_voters := true, total_voters := 6,
    results := [{ chosen := false, option := "0", voters := 6 }] }

theorem c5_amended_idempotent_witness :
    on_get_poll (on_get_poll cex5 1 none pr5w).1 1 none pr5w =
      ((on_get_poll cex5 1 none pr5w).1, [], (on_get_poll cex5 1 none pr5w).2.2) :=
  c5_amended_idempotent cex5 1 none pr5w (by decide)
